import Mathlib

/-!
Verification of the claude-codex-bridge core against its specification.

The development shallowly embeds the two core components of the repository:

* the external-process invocation pipeline of
  `src/claude_codex_bridge/bridge_server.py` (`invoke_codex_cli`):
  argument-vector construction and terminal-outcome classification;
* the result cache of `src/cache.py` (`ResultCache`): get/set/clear/cleanup
  with TTL expiry and LRU eviction, and the directory fingerprinter
  (`_calculate_directory_hash`), including its traversal order and its
  scan-failure fallback.

Machine integers do not occur; Python integers and wall-clock readings are
modelled as `Int` (whole seconds suffice for the cache) and `ℚ` (for the
fractional `time.time()` reading truncated by `int(...)` in the fingerprint
fallback).  Cryptographic digests (MD5 of a file's bytes, SHA-256 of the
joined record string) are pure functions of their input; the properties at
issue concern the sequence of `relativePath` records fed into them, which is
what the traversal model produces.
-/

namespace CodexBridge

/-! ### Argument-vector construction

`bridge_server.invoke_codex_cli`, lines 77-105: the command list is built as
`["codex", "exec"]`, then `["-C", working_directory]`, then
`["-c", "sandbox_permissions=[]"]` when `allow_write` is false, then either
the single `"--full-auto"` convenience flag (only when `execution_mode` is
`"on-failure"`, `sandbox_mode` is `"workspace-write"` and writing is
allowed) or `["-s", sandbox_mode]`, then the `"--"` delimiter, and finally
the prompt. -/

def buildCommand (prompt working_directory execution_mode sandbox_mode : String)
    (allow_write : Bool) : List String :=
  ["codex", "exec"]
    ++ ["-C", working_directory]
    ++ (if allow_write then [] else ["-c", "sandbox_permissions=[]"])
    ++ (if execution_mode == "on-failure" && sandbox_mode == "workspace-write" && allow_write
        then ["--full-auto"]
        else ["-s", sandbox_mode])
    ++ ["--", prompt]

/-- Predicate: `hasFlagPair a b args` holds when `a` occurs in `args` immediately
followed by `b`: the shape in which a two-token flag such as
`-c sandbox_permissions=[]` is passed to the external tool. -/
def hasFlagPair (a b : String) : List String → Bool
  | x :: y :: rest => (x == a && y == b) || hasFlagPair a b (y :: rest)
  | _ => false

/-! ### Outcome classification

`bridge_server.invoke_codex_cli`, lines 107-150: after launching the
subprocess, a completed process with non-zero exit code raises
`RuntimeError` with a stderr-derived message (`"Unknown error"` when the
captured stderr is empty); a completed process with exit code zero returns
the decoded stdout/stderr pair; a timeout raises `asyncio.TimeoutError`; a
`FileNotFoundError` at launch raises `RuntimeError` with installation
guidance. -/

/-- The terminal condition of the launched subprocess, as observed by
`invoke_codex_cli`: completion within the timeout (with exit code and the
two decoded output streams), the timeout firing first, or the `codex`
binary being absent at launch. -/
inductive ProcOutcome where
  | completed (returncode : Int) (stdout stderr : String)
  | timedOut
  | notFound
deriving DecidableEq

/-- The exception raised by `invoke_codex_cli` on a non-`Success` outcome,
keeping the Python exception class: `RuntimeError` for failures and the
missing binary, `asyncio.TimeoutError` for the timeout path. -/
inductive InvokeError where
  | runtimeError (msg : String)
  | timeoutError (msg : String)
deriving DecidableEq

/-- Message raised when the `codex` binary cannot be found
(`bridge_server.py`, lines 146-150). -/
def notFoundMessage : String :=
  "codex command not found. Please ensure OpenAI Codex CLI is installed: npm install -g @openai/codex"

/-- Message raised on a non-zero exit code (`bridge_server.py`, lines
121-128): the captured stderr, decoded and stripped, or `"Unknown error"`
when stderr is empty. -/
def failedMessage (returncode : Int) (stderr : String) : String :=
  "Codex CLI execution failed (exit code: " ++ toString returncode ++ "): "
    ++ (if stderr == "" then "Unknown error" else stderr.trim)

/-- Message raised when the timeout fires (`bridge_server.py`, lines
132-144). -/
def timedOutMessage (timeout : Int) : String :=
  "Codex CLI execution timed out (exceeded " ++ toString timeout ++ " seconds)"

/-- The result of `invoke_codex_cli` as a function of the subprocess's
terminal condition: `ok` carries the `(stdout, stderr)` pair returned on
exit code zero, `error` the raised exception. -/
def invokeCodexCliResult (timeout : Int) : ProcOutcome → Except InvokeError (String × String)
  | .completed rc out err =>
      if rc ≠ 0 then .error (.runtimeError (failedMessage rc err))
      else .ok (out, err)
  | .timedOut => .error (.timeoutError (timedOutMessage timeout))
  | .notFound => .error (.runtimeError notFoundMessage)

end CodexBridge

namespace CodexBridge

/-! ## Claims about argument construction -/

theorem getLast?_append_pair {α : Type _} (l : List α) (a b : α) :
    (l ++ [a, b]).getLast? = some b := by
  have h : l ++ [a, b] = (l ++ [a]) ++ [b] := by simp
  rw [h, List.getLast?_concat]

theorem dropLast_getLast?_append_pair {α : Type _} (l : List α) (a b : α) :
    (l ++ [a, b]).dropLast.getLast? = some a := by
  have h : l ++ [a, b] = (l ++ [a]) ++ [b] := by simp
  rw [h, List.dropLast_concat, List.getLast?_concat]

/-- C1. The argument vector built by `invoke_codex_cli` always ends in
the end-of-flags delimiter `"--"` followed by the unmodified prompt: the
prompt is the final element and the delimiter the element immediately
preceding it, for every combination of parameters; in particular the
dash-leading prompt `"-a do something"` appears unmodified as the final
element. -/
theorem invoke_args_delimiter_before_prompt
    (prompt wd em sm : String) (aw : Bool) :
    (buildCommand prompt wd em sm aw).getLast? = some prompt ∧
    (buildCommand prompt wd em sm aw).dropLast.getLast? = some "--" ∧
    (buildCommand "-a do something" wd em sm aw).getLast? = some "-a do something" := by
  unfold buildCommand
  exact ⟨getLast?_append_pair _ _ _, dropLast_getLast?_append_pair _ _ _,
    getLast?_append_pair _ _ _⟩

/-- C2. When `allow_write` is false the constructed argument vector
contains the consecutive token pair `-c sandbox_permissions=[]` — the
override stripping all filesystem-mutation capability — regardless of the
requested sandbox mode; when `allow_write` is true that pair never occurs
in the vector. -/
theorem readonly_emits_empty_sandbox_permissions
    (prompt wd em sm : String) :
    hasFlagPair "-c" "sandbox_permissions=[]" (buildCommand prompt wd em sm false) = true ∧
    hasFlagPair "-c" "sandbox_permissions=[]" (buildCommand prompt wd em sm true) = false := by
  constructor
  · simp [buildCommand, hasFlagPair]
  · have h : buildCommand prompt wd em sm true =
        ["codex", "exec"] ++ ["-C", wd]
          ++ (if em == "on-failure" && sm == "workspace-write"
              then ["--full-auto"] else ["-s", sm])
          ++ ["--", prompt] := by
      simp [buildCommand]
    rw [h]
    split <;> simp [hasFlagPair]

/-! ## Claim about outcome classification -/

/-- C9. The function `invoke_codex_cli` classifies every terminal outcome: a process
completing with exit code zero yields the decoded `(stdout, stderr)` pair;
a non-zero exit code yields a `RuntimeError` whose message is derived from
stderr, with `"Unknown error"` substituted when stderr is empty; a missing
`codex` binary yields the distinct installation-guidance error, which
differs from every non-zero-exit error. -/
theorem invoke_outcome_classification :
    (∀ (out err : String) (tmo : Int),
      invokeCodexCliResult tmo (.completed 0 out err) = .ok (out, err)) ∧
    (∀ (rc : Int) (out err : String) (tmo : Int), rc ≠ 0 →
      invokeCodexCliResult tmo (.completed rc out err) =
        .error (.runtimeError (failedMessage rc err)) ∧
      (err = "" → failedMessage rc err =
        "Codex CLI execution failed (exit code: " ++ toString rc ++ "): " ++ "Unknown error")) ∧
    (∀ tmo : Int, invokeCodexCliResult tmo .notFound = .error (.runtimeError notFoundMessage)) ∧
    (∀ (rc : Int) (out err : String) (tmo tmo' : Int),
      invokeCodexCliResult tmo (.completed rc out err) ≠ invokeCodexCliResult tmo' .notFound) := by
  refine ⟨?_, ?_, ?_, ?_⟩
  · intro out err tmo
    simp [invokeCodexCliResult]
  · intro rc out err tmo hrc
    constructor
    · simp [invokeCodexCliResult, hrc]
    · intro herr
      subst herr
      simp [failedMessage]
  · intro tmo
    rfl
  · intro rc out err tmo tmo'
    by_cases hrc : rc = 0
    · subst hrc
      simp [invokeCodexCliResult, notFoundMessage]
    · intro heq
      simp only [invokeCodexCliResult, if_pos hrc, Except.error.injEq,
        InvokeError.runtimeError.injEq] at heq
      have h1 : (failedMessage rc err).data.head? = some 'C' := rfl
      have h2 : notFoundMessage.data.head? = some 'c' := rfl
      rw [heq, h2] at h1
      simp at h1

/-- Witness for C9: a concrete non-zero exit with empty stderr produces the
`RuntimeError` with the `"Unknown error"` message. -/
theorem invoke_outcome_classification_witness :
    invokeCodexCliResult 300 (.completed 1 "out" "") =
      .error (.runtimeError (failedMessage 1 "")) ∧
    failedMessage 1 "" =
      "Codex CLI execution failed (exit code: " ++ toString (1 : Int) ++ "): " ++ "Unknown error" :=
  ⟨(invoke_outcome_classification.2.1 1 "out" "" 300 (by decide)).1,
   (invoke_outcome_classification.2.1 1 "out" "" 300 (by decide)).2 rfl⟩

/-! ## The result cache

`src/cache.py`, `ResultCache`.  The Python object holds `self.cache`, an
insertion-ordered dict from cache key to an entry dict with fields
`result`, `timestamp` (creation time), `last_accessed` and a truncated
`task_description`.  The dict is modelled as an insertion-ordered
association list: updating an existing key keeps its position, inserting a
new key appends, `del` removes.  `get` and `set` first derive the cache key
from the task parameters and the directory fingerprint
(`_generate_cache_key`, a SHA-256 of the canonically serialized
parameters); the cache body operates on that derived key, so the operations
are modelled at the key level.  Wall-clock readings (`time.time()`) are the
explicit `now : Int` arguments. -/

structure CacheEntry where
  result : String
  timestamp : Int
  last_accessed : Int
  task_description : String
deriving DecidableEq

structure ResultCache where
  cache : List (String × CacheEntry)
  ttl : Int
  max_size : Int
deriving DecidableEq

/-- Model of `ResultCache.__init__` (cache.py, lines 24-34): empty map with the
configured TTL and maximum entry count. -/
def ResultCache.init (ttl max_size : Int) : ResultCache :=
  { cache := [], ttl := ttl, max_size := max_size }

/-- Python `cache_key in self.cache` / `self.cache[cache_key]`: the first
entry with the given key (keys are unique in a dict). -/
def lookupEntry : List (String × CacheEntry) → String → Option CacheEntry
  | [], _ => none
  | (k, e) :: rest, key => if k == key then some e else lookupEntry rest key

/-- Python `del self.cache[key]`: remove the entries with the given key. -/
def eraseKey (l : List (String × CacheEntry)) (key : String) : List (String × CacheEntry) :=
  l.filter (fun p => !(p.1 == key))

/-- Python `self.cache[key] = entry`: replace in place if the key is
present, append otherwise. -/
def storeEntry : List (String × CacheEntry) → String → CacheEntry → List (String × CacheEntry)
  | [], key, e => [(key, e)]
  | (k, e0) :: rest, key, e =>
      if k == key then (k, e) :: rest else (k, e0) :: storeEntry rest key e

/-- Model of `ResultCache.get` (cache.py, lines 164-179), after the cache key has
been derived: an absent key returns `none`; a present entry older than the
TTL (`now - timestamp > ttl`) is deleted and `none` is returned; a fresh
entry has its `last_accessed` set to `now` and its `result` returned. -/
def ResultCache.get (c : ResultCache) (key : String) (now : Int) :
    Option String × ResultCache :=
  match lookupEntry c.cache key with
  | none => (none, c)
  | some e =>
      if now - e.timestamp > c.ttl then
        (none, { c with cache := eraseKey c.cache key })
      else
        (some e.result,
         { c with cache := storeEntry c.cache key { e with last_accessed := now } })

/-- The scan in `ResultCache._evict_oldest` (cache.py, lines 236-239):
Python's `min` over the keys with `last_accessed` as sort key returns the
first key attaining the minimum in iteration order (later entries replace
the running best only when strictly smaller). -/
def firstMinEntry : (String × CacheEntry) → List (String × CacheEntry) → String × CacheEntry
  | best, [] => best
  | best, p :: rest =>
      if p.2.last_accessed < best.2.last_accessed then firstMinEntry p rest
      else firstMinEntry best rest

/-- Model of `ResultCache._evict_oldest` (cache.py, lines 231-241): no-op on an
empty map, otherwise delete the entry with the least `last_accessed`. -/
def ResultCache.evictOldest (c : ResultCache) : ResultCache :=
  match c.cache with
  | [] => c
  | p :: rest => { c with cache := eraseKey c.cache (firstMinEntry p rest).1 }

/-- The `task_description` truncation stored by `set` (cache.py, lines
224-228). -/
def truncateTask (task_description : String) : String :=
  if task_description.length > 100 then task_description.take 100 ++ "..." else task_description

/-- Model of `ResultCache.set` (cache.py, lines 214-229), after the cache key has
been derived: when `len(self.cache) >= self.max_size` the oldest entry is
evicted first (whether or not the key is already present); then the entry
is stored with `timestamp = last_accessed = now`. -/
def ResultCache.set (c : ResultCache) (key task_description result : String) (now : Int) :
    ResultCache :=
  let c1 := if (c.cache.length : Int) ≥ c.max_size then c.evictOldest else c
  { c1 with
    cache := storeEntry c1.cache key
      { result := result, timestamp := now, last_accessed := now,
        task_description := truncateTask task_description } }

/-- Model of `ResultCache.clear` (cache.py, lines 243-245). -/
def ResultCache.clear (c : ResultCache) : ResultCache :=
  { c with cache := [] }

/-- Model of `ResultCache.cleanup_expired` (cache.py, lines 274-286): delete every
entry with `now - timestamp > ttl` and return how many were deleted. -/
def ResultCache.cleanupExpired (c : ResultCache) (now : Int) : Nat × ResultCache :=
  let expired := c.cache.filter (fun p => decide (now - p.2.timestamp > c.ttl))
  (expired.length,
   { c with cache := c.cache.filter (fun p => !decide (now - p.2.timestamp > c.ttl)) })

/-- One public cache operation, with its wall-clock reading. -/
inductive CacheOp where
  | get (key : String) (now : Int)
  | set (key task_description result : String) (now : Int)
  | clear
  | cleanup (now : Int)

def applyOp (c : ResultCache) : CacheOp → ResultCache
  | .get key now => (c.get key now).2
  | .set key td res now => c.set key td res now
  | .clear => c.clear
  | .cleanup now => (c.cleanupExpired now).2

/-- A sequence of public operations against the cache. -/
def runOps (c : ResultCache) (ops : List CacheOp) : ResultCache :=
  ops.foldl applyOp c

/-! ## Structural lemmas about the association-list operations -/

theorem length_storeEntry_le (l : List (String × CacheEntry)) (key : String) (e : CacheEntry) :
    (storeEntry l key e).length ≤ l.length + 1 := by
  induction l with
  | nil => simp [storeEntry]
  | cons p rest ih =>
      obtain ⟨k, e0⟩ := p
      simp only [storeEntry]
      split
      · simp
      · simpa using Nat.succ_le_succ ih

theorem length_storeEntry_of_lookup {l : List (String × CacheEntry)} {key : String}
    {e0 : CacheEntry} (h : lookupEntry l key = some e0) (e : CacheEntry) :
    (storeEntry l key e).length = l.length := by
  induction l with
  | nil => simp [lookupEntry] at h
  | cons p rest ih =>
      obtain ⟨k, e1⟩ := p
      simp only [lookupEntry] at h
      simp only [storeEntry]
      split
      · simp
      · rename_i hk
        rw [if_neg hk] at h
        simpa using ih h

theorem length_eraseKey_le (l : List (String × CacheEntry)) (key : String) :
    (eraseKey l key).length ≤ l.length :=
  List.length_filter_le _ _

theorem length_eraseKey_lt_of_mem {l : List (String × CacheEntry)}
    {q : String × CacheEntry} (h : q ∈ l) :
    (eraseKey l q.1).length < l.length := by
  refine List.length_filter_lt_length_iff_exists.mpr ⟨q, h, ?_⟩
  simp

theorem firstMinEntry_mem (best : String × CacheEntry)
    (l : List (String × CacheEntry)) :
    firstMinEntry best l = best ∨ firstMinEntry best l ∈ l := by
  induction l generalizing best with
  | nil => simp [firstMinEntry]
  | cons p rest ih =>
      simp only [firstMinEntry]
      split
      · rcases ih p with h | h
        · right; simp [h]
        · right; simp [h]
      · rcases ih best with h | h
        · left; exact h
        · right; simp [h]

theorem firstMinEntry_le (best : String × CacheEntry)
    (l : List (String × CacheEntry)) :
    (firstMinEntry best l).2.last_accessed ≤ best.2.last_accessed ∧
      ∀ q ∈ l, (firstMinEntry best l).2.last_accessed ≤ q.2.last_accessed := by
  induction l generalizing best with
  | nil => simp [firstMinEntry]
  | cons p rest ih =>
      simp only [firstMinEntry]
      split
      · rename_i hlt
        obtain ⟨h1, h2⟩ := ih p
        exact ⟨le_trans h1 (le_of_lt hlt),
          fun q hq => by
            rcases List.mem_cons.mp hq with rfl | hq
            · exact h1
            · exact h2 q hq⟩
      · rename_i hlt
        obtain ⟨h1, h2⟩ := ih best
        exact ⟨h1,
          fun q hq => by
            rcases List.mem_cons.mp hq with rfl | hq
            · exact le_trans h1 (le_of_not_lt hlt)
            · exact h2 q hq⟩

theorem evictOldest_length_lt (c : ResultCache) (h : c.cache ≠ []) :
    c.evictOldest.cache.length < c.cache.length := by
  cases hc : c.cache with
  | nil => exact absurd hc h
  | cons p rest =>
      have hmem : firstMinEntry p rest ∈ p :: rest := by
        rcases firstMinEntry_mem p rest with h' | h' <;> simp [h']
      simp only [ResultCache.evictOldest, hc]
      exact length_eraseKey_lt_of_mem hmem

theorem applyOp_max_size (c : ResultCache) (op : CacheOp) :
    (applyOp c op).max_size = c.max_size := by
  cases op with
  | get key now =>
      simp only [applyOp, ResultCache.get]
      cases lookupEntry c.cache key with
      | none => rfl
      | some e => dsimp only; split <;> rfl
  | set key td res now =>
      simp only [applyOp, ResultCache.set]
      split
      · cases hc : c.cache <;> simp [ResultCache.evictOldest, hc]
      · rfl
  | clear => rfl
  | cleanup now => rfl

theorem applyOp_length_le (c : ResultCache) (op : CacheOp)
    (h1 : (c.cache.length : Int) ≤ c.max_size) (h2 : 1 ≤ c.max_size) :
    ((applyOp c op).cache.length : Int) ≤ c.max_size := by
  cases op with
  | get key now =>
      simp only [applyOp, ResultCache.get]
      cases hk : lookupEntry c.cache key with
      | none => exact h1
      | some e =>
          dsimp only
          split
          · refine le_trans ?_ h1
            exact_mod_cast length_eraseKey_le c.cache key
          · refine le_trans ?_ h1
            exact_mod_cast le_of_eq (length_storeEntry_of_lookup hk _)
  | set key td res now =>
      simp only [applyOp, ResultCache.set]
      split
      · rename_i hfull
        have hne : c.cache ≠ [] := by
          intro hnil
          rw [hnil] at hfull
          simp at hfull
          omega
        have hlt : c.evictOldest.cache.length < c.cache.length :=
          evictOldest_length_lt c hne
        have hst : (storeEntry c.evictOldest.cache key
            { result := res, timestamp := now, last_accessed := now,
              task_description := truncateTask td }).length
            ≤ c.evictOldest.cache.length + 1 := length_storeEntry_le _ _ _
        have : (storeEntry c.evictOldest.cache key
            { result := res, timestamp := now, last_accessed := now,
              task_description := truncateTask td }).length ≤ c.cache.length := by omega
        exact le_trans (by exact_mod_cast this) h1
      · rename_i hfull
        have hst := length_storeEntry_le c.cache key
          { result := res, timestamp := now, last_accessed := now,
            task_description := truncateTask td }
        have hlt : (c.cache.length : Int) < c.max_size := lt_of_not_ge hfull
        have : ((storeEntry c.cache key
            { result := res, timestamp := now, last_accessed := now,
              task_description := truncateTask td }).length : Int)
            ≤ (c.cache.length : Int) + 1 := by exact_mod_cast hst
        omega
  | clear =>
      simpa [applyOp, ResultCache.clear] using le_trans zero_le_one h2
  | cleanup now =>
      simp only [applyOp, ResultCache.cleanupExpired]
      refine le_trans ?_ h1
      exact_mod_cast List.length_filter_le _ c.cache

theorem runOps_invariant (ops : List CacheOp) (c : ResultCache)
    (h1 : (c.cache.length : Int) ≤ c.max_size) (h2 : 1 ≤ c.max_size) :
    ((runOps c ops).cache.length : Int) ≤ (runOps c ops).max_size ∧
      (runOps c ops).max_size = c.max_size := by
  induction ops generalizing c with
  | nil => exact ⟨h1, rfl⟩
  | cons op rest ih =>
      have hmax := applyOp_max_size c op
      have hlen := applyOp_length_le c op h1 h2
      have hres := ih (applyOp c op) (by rw [hmax]; exact hlen) (by rw [hmax]; exact h2)
      have hrun : runOps c (op :: rest) = runOps (applyOp c op) rest := rfl
      rw [hrun]
      exact ⟨hres.1, by rw [hres.2, hmax]⟩

/-! ## Claims about the cache -/

/-- Counterexample for C3: with configured capacity `max_size = 0` a single
`set` from the initial state leaves one stored entry, exceeding the
capacity. -/
theorem set_capacity_zero_exceeded :
    ¬ ((((ResultCache.init 3600 0).set "k" "t" "r" 0).cache.length : Int)
        ≤ (ResultCache.init 3600 0).max_size) := by decide

/-- C3, amended. Provided the configured capacity is at least 1, after
every `set` call — at the end of any sequence of get/set/clear/cleanup
operations from the initial state — the number of stored entries is at most
`max_size`; with capacity 0 (or negative) a `set` leaves one entry and the
bound fails. -/
theorem set_respects_capacity_of_pos (ttl max_size : Int) (h : 1 ≤ max_size)
    (ops : List CacheOp) (key td res : String) (now : Int) :
    (((runOps (ResultCache.init ttl max_size)
        (ops ++ [CacheOp.set key td res now])).cache.length : Int)) ≤ max_size := by
  have := runOps_invariant (ops ++ [CacheOp.set key td res now])
    (ResultCache.init ttl max_size) (by simp [ResultCache.init]; omega) h
  rw [this.2] at this
  exact this.1

/-- Witness for C3: capacity 2, two inserts then a third `set`; the bound
`≤ 2` holds. -/
theorem set_respects_capacity_of_pos_witness :
    (((runOps (ResultCache.init 3600 2)
        ([CacheOp.set "k1" "t1" "r1" 0, CacheOp.set "k2" "t2" "r2" 1]
          ++ [CacheOp.set "k3" "t3" "r3" 2])).cache.length : Int)) ≤ 2 :=
  set_respects_capacity_of_pos 3600 2 (by decide)
    [CacheOp.set "k1" "t1" "r1" 0, CacheOp.set "k2" "t2" "r2" 1] "k3" "t3" "r3" 2

theorem lookupEntry_storeEntry_self (l : List (String × CacheEntry)) (key : String)
    (e : CacheEntry) : lookupEntry (storeEntry l key e) key = some e := by
  induction l with
  | nil => simp [storeEntry, lookupEntry]
  | cons p rest ih =>
      obtain ⟨k, e0⟩ := p
      simp only [storeEntry]
      split
      · rename_i hk
        simp [lookupEntry, hk]
      · rename_i hk
        simp [lookupEntry, hk, ih]

theorem lookupEntry_storeEntry_ne (l : List (String × CacheEntry)) {key k' : String}
    (e : CacheEntry) (h : k' ≠ key) :
    lookupEntry (storeEntry l key e) k' = lookupEntry l k' := by
  induction l with
  | nil =>
      have : ¬ (key == k') = true := by simp [beq_iff_eq]; exact fun hk => h hk.symm
      simp [storeEntry, lookupEntry, this]
  | cons p rest ih =>
      obtain ⟨k, e0⟩ := p
      simp only [storeEntry]
      split
      · rename_i hk
        have hkey : k = key := by simpa [beq_iff_eq] using hk
        have hne : ¬ (k == k') = true := by
          simp [beq_iff_eq, hkey]
          exact fun hk' => h hk'.symm
        simp [lookupEntry, hne]
      · rename_i hk
        simp only [lookupEntry]
        split
        · rfl
        · exact ih

theorem lookupEntry_eraseKey_self (l : List (String × CacheEntry)) (key : String) :
    lookupEntry (eraseKey l key) key = none := by
  induction l with
  | nil => simp [eraseKey, lookupEntry]
  | cons p rest ih =>
      obtain ⟨k, e0⟩ := p
      simp only [eraseKey, List.filter]
      by_cases hk : (k == key) = true
      · simpa [hk, eraseKey] using ih
      · simp only [hk]
        simpa [lookupEntry, hk, eraseKey] using ih

/-- The capacity-2 cache holding `k1` (accessed at 0) and `k2` (accessed
at 1). -/
def twoEntryCache : ResultCache :=
  runOps (ResultCache.init 1000 2)
    [CacheOp.set "k1" "t1" "r1" 0, CacheOp.set "k2" "t2" "r2" 1]

/-- Counterexample for C4: `k2` is already present in the full capacity-2
cache, yet `set` on `k2` evicts the *other* entry `k1` — the capacity check
runs before the key-presence distinction, so an overwrite at capacity
removes another entry. -/
theorem set_existing_key_evicts_other_entry :
    (lookupEntry twoEntryCache.cache "k2").isSome = true ∧
    (lookupEntry twoEntryCache.cache "k1").isSome = true ∧
    lookupEntry ((twoEntryCache.set "k2" "t2" "r2b" 2).cache) "k1" = none := by decide

/-- C4, amended. A `set` call on a cache strictly below capacity
removes no other entry: every key other than the one written is looked up
unchanged.  When the cache is at (or above) capacity, however, `set` always
evicts the entry with the oldest `last_accessed` first — even when the key
being written is already present — and then stores the new entry. -/
theorem set_frame_and_eviction_condition :
    (∀ (c : ResultCache) (key td res : String) (now : Int),
      (c.cache.length : Int) < c.max_size →
      ∀ k', k' ≠ key →
        lookupEntry (c.set key td res now).cache k' = lookupEntry c.cache k') ∧
    (∀ (c : ResultCache) (key td res : String) (now : Int),
      (c.cache.length : Int) ≥ c.max_size →
      (c.set key td res now).cache = storeEntry c.evictOldest.cache key
        { result := res, timestamp := now, last_accessed := now,
          task_description := truncateTask td }) := by
  constructor
  · intro c key td res now h k' hk
    simp only [ResultCache.set]
    rw [if_neg (not_le.mpr h)]
    exact lookupEntry_storeEntry_ne c.cache _ hk
  · intro c key td res now h
    simp only [ResultCache.set]
    rw [if_pos h]

/-- Witness for C4: writing `k2` into a one-entry capacity-2 cache leaves
the lookup of `k1` unchanged. -/
theorem set_frame_and_eviction_condition_witness :
    lookupEntry (((ResultCache.init 1000 2).set "k1" "t1" "r1" 0).set
        "k2" "t2" "r2" 1).cache "k1"
      = lookupEntry ((ResultCache.init 1000 2).set "k1" "t1" "r1" 0).cache "k1" :=
  set_frame_and_eviction_condition.1
    ((ResultCache.init 1000 2).set "k1" "t1" "r1" 0) "k2" "t2" "r2" 1
    (by decide) "k1" (by decide)

/-- C5. Eviction is least-recently-*accessed*: whenever the cache is
nonempty, `_evict_oldest` deletes the key of a stored entry whose
`last_accessed` is minimal over all entries (the scan deterministically
keeps the first minimum in iteration order); a fresh `get` rewrites the
entry's `last_accessed` to now, refreshing its eviction priority; and in
the concrete capacity-2 scenario — insert `k1`, insert `k2`, `get k1`,
insert `k3` — the least-recently-accessed `k2` is evicted while `k1` and
`k3` remain retrievable. -/
theorem evict_lru_and_get_refresh :
    (∀ (c : ResultCache) (p : String × CacheEntry) (rest : List (String × CacheEntry)),
      c.cache = p :: rest →
        firstMinEntry p rest ∈ c.cache ∧
        (∀ q ∈ c.cache,
          (firstMinEntry p rest).2.last_accessed ≤ q.2.last_accessed) ∧
        c.evictOldest.cache = eraseKey c.cache (firstMinEntry p rest).1) ∧
    (∀ (c : ResultCache) (key : String) (now : Int) (e : CacheEntry),
      lookupEntry c.cache key = some e → ¬(now - e.timestamp > c.ttl) →
        lookupEntry (c.get key now).2.cache key = some { e with last_accessed := now }) ∧
    (((runOps (ResultCache.init 1000 2)
        [CacheOp.set "k1" "t1" "r1" 0, CacheOp.set "k2" "t2" "r2" 1,
         CacheOp.get "k1" 2, CacheOp.set "k3" "t3" "r3" 3]).get "k2" 4).1 = none ∧
     ((runOps (ResultCache.init 1000 2)
        [CacheOp.set "k1" "t1" "r1" 0, CacheOp.set "k2" "t2" "r2" 1,
         CacheOp.get "k1" 2, CacheOp.set "k3" "t3" "r3" 3]).get "k1" 4).1 = some "r1" ∧
     ((runOps (ResultCache.init 1000 2)
        [CacheOp.set "k1" "t1" "r1" 0, CacheOp.set "k2" "t2" "r2" 1,
         CacheOp.get "k1" 2, CacheOp.set "k3" "t3" "r3" 3]).get "k3" 4).1 = some "r3") := by
  refine ⟨?_, ?_, by decide⟩
  · intro c p rest hc
    refine ⟨?_, ?_, ?_⟩
    · rw [hc]
      rcases firstMinEntry_mem p rest with h' | h' <;> simp [h']
    · intro q hq
      rw [hc] at hq
      rcases List.mem_cons.mp hq with hq | hq
      · rw [hq]
        exact (firstMinEntry_le p rest).1
      · exact (firstMinEntry_le p rest).2 q hq
    · simp only [ResultCache.evictOldest, hc]
  · intro c key now e he hfresh
    simp only [ResultCache.get, he]
    rw [if_neg hfresh]
    exact lookupEntry_storeEntry_self c.cache key _

/-- Witness for C5: a fresh `get` at time 5 on the single stored entry
rewrites its `last_accessed` from 0 to 5. -/
theorem evict_lru_and_get_refresh_witness :
    lookupEntry (((ResultCache.init 1000 2).set "k1" "t" "r" 0).get "k1" 5).2.cache "k1"
      = some { result := "r", timestamp := 0, last_accessed := 5,
               task_description := "t" } :=
  evict_lru_and_get_refresh.2.1 ((ResultCache.init 1000 2).set "k1" "t" "r" 0)
    "k1" 5 { result := "r", timestamp := 0, last_accessed := 0, task_description := "t" }
    (by decide) (by decide)

/-- C6. The `get` classification: an absent key returns empty and leaves
the cache unchanged; a present but expired entry (`now - timestamp > ttl`)
is removed from the cache and empty is returned; a present fresh entry has
its `last_accessed` updated to now and its stored value returned. -/
theorem get_lazy_expiry_classification (c : ResultCache) (key : String) (now : Int) :
    (lookupEntry c.cache key = none → c.get key now = (none, c)) ∧
    (∀ e, lookupEntry c.cache key = some e → now - e.timestamp > c.ttl →
      (c.get key now).1 = none ∧
      (c.get key now).2.cache = eraseKey c.cache key ∧
      lookupEntry (c.get key now).2.cache key = none) ∧
    (∀ e, lookupEntry c.cache key = some e → ¬(now - e.timestamp > c.ttl) →
      (c.get key now).1 = some e.result ∧
      lookupEntry (c.get key now).2.cache key = some { e with last_accessed := now }) := by
  refine ⟨?_, ?_, ?_⟩
  · intro h
    simp [ResultCache.get, h]
  · intro e he hexp
    simp only [ResultCache.get, he]
    rw [if_pos hexp]
    exact ⟨rfl, rfl, lookupEntry_eraseKey_self c.cache key⟩
  · intro e he hfresh
    simp only [ResultCache.get, he]
    rw [if_neg hfresh]
    exact ⟨rfl, lookupEntry_storeEntry_self c.cache key _⟩

/-- Witness for C6: an entry created at 0 with TTL 10 is expired at time
100 — the `get` returns empty and removes it. -/
theorem get_lazy_expiry_classification_witness :
    ((((ResultCache.init 10 5).set "k" "t" "r" 0).get "k" 100).1 = none ∧
      (((ResultCache.init 10 5).set "k" "t" "r" 0).get "k" 100).2.cache
        = eraseKey (((ResultCache.init 10 5).set "k" "t" "r" 0)).cache "k" ∧
      lookupEntry ((((ResultCache.init 10 5).set "k" "t" "r" 0).get "k" 100).2).cache "k"
        = none) :=
  (get_lazy_expiry_classification ((ResultCache.init 10 5).set "k" "t" "r" 0) "k" 100).2.1
    { result := "r", timestamp := 0, last_accessed := 0, task_description := "t" }
    (by decide) (by decide)

/-- The state reached by: insert `k1` at 0, insert `k2` at 5, `get k1` at 8
(refreshing `k1`'s access time), with TTL 10 and capacity 2. -/
def expiredScenarioCache : ResultCache :=
  runOps (ResultCache.init 10 2)
    [CacheOp.set "k1" "t1" "r1" 0, CacheOp.set "k2" "t2" "r2" 5, CacheOp.get "k1" 8]

/-- C10. Expired-but-unswept entries occupy capacity and participate in
eviction like fresh ones: at time 12 the entry `k1` is expired
(`12 - 0 > 10`) and `k2` is fresh (`¬(12 - 5 > 10)`), the capacity check
counts both, and the `set` of `k3` evicts the *fresh* `k2` (whose
`last_accessed` 5 is minimal, `k1` having been refreshed to 8) while the
expired `k1` remains stored. -/
theorem expired_entry_occupies_capacity :
    lookupEntry expiredScenarioCache.cache "k1"
      = some { result := "r1", timestamp := 0, last_accessed := 8,
               task_description := "t1" } ∧
    lookupEntry expiredScenarioCache.cache "k2"
      = some { result := "r2", timestamp := 5, last_accessed := 5,
               task_description := "t2" } ∧
    (12 : Int) - 0 > expiredScenarioCache.ttl ∧
    ¬((12 : Int) - 5 > expiredScenarioCache.ttl) ∧
    (expiredScenarioCache.cache.length : Int) ≥ expiredScenarioCache.max_size ∧
    lookupEntry ((expiredScenarioCache.set "k3" "t3" "r3" 12).cache) "k2" = none ∧
    lookupEntry ((expiredScenarioCache.set "k3" "t3" "r3" 12).cache) "k1"
      = some { result := "r1", timestamp := 0, last_accessed := 8,
               task_description := "t1" } ∧
    (lookupEntry ((expiredScenarioCache.set "k3" "t3" "r3" 12).cache) "k3").isSome = true := by
  decide

/-! ## The directory fingerprinter

`ResultCache._calculate_directory_hash` (cache.py, lines 77-128) walks the
directory tree with `os.walk`: at each directory it receives the
subdirectory and file names in the order the operating system enumerates
them, prunes hidden and ignored subdirectories in place, iterates
`sorted(files)`, skips hidden/binary names and unreadable files, and
appends a `relative_path:md5` record per remaining file; finally the
records are joined with `|` and hashed with SHA-256.  The MD5/SHA-256
digests are pure functions of their input, so the properties at issue —
which records are emitted, and in what order — are captured by the list of
`relative_path` components in emission order.  A directory tree is a
nested inductive whose entry list carries the operating system's
enumeration order. -/

mutual
inductive FSTree where
  | file (readable : Bool) (content : String)
  | dir (entries : FSEntries)

/-- Directory entries in the enumeration order returned by the operating
system (`os.scandir` order, which `os.walk` reports and which is not
guaranteed to be sorted). -/
inductive FSEntries where
  | nil
  | cons (name : String) (tree : FSTree) (rest : FSEntries)
end

/-- Python `s.startswith(pre)`. -/
def pyStartsWith (s pre : String) : Bool := pre.data.isPrefixOf s.data

/-- Python `s.endswith(suf)`. -/
def pyEndsWith (s suf : String) : Bool := suf.data.reverse.isPrefixOf s.data.reverse

/-- The fixed noise-directory names pruned from the walk (cache.py, line
97). -/
def ignoredDirs : List String := ["node_modules", "__pycache__", ".git"]

/-- The in-place pruning of `dirs` (cache.py, lines 93-98): keep a
subdirectory unless hidden or in the ignored set. -/
def keepDir (name : String) : Bool :=
  !pyStartsWith name "." && !ignoredDirs.contains name

/-- The file skip condition (cache.py, lines 102-105): hidden names and
compiled/binary extensions. -/
def skipFile (name : String) : Bool :=
  pyStartsWith name "." || pyEndsWith name ".pyc" || pyEndsWith name ".so"
    || pyEndsWith name ".exe" || pyEndsWith name ".bin"

/-- The `files` component of an `os.walk` tuple: the file children of a
directory, `(name, readable)`, in enumeration order. -/
def fileEntries : FSEntries → List (String × Bool)
  | .nil => []
  | .cons name (FSTree.file r _) rest => (name, r) :: fileEntries rest
  | .cons _ (FSTree.dir _) rest => fileEntries rest

instance : DecidableRel (fun p q : String × Bool => p.1 ≤ q.1) :=
  fun p q => inferInstanceAs (Decidable (p.1 ≤ q.1))

instance : IsTotal (String × Bool) (fun p q => p.1 ≤ q.1) :=
  ⟨fun p q => le_total p.1 q.1⟩

instance : IsTrans (String × Bool) (fun p q => p.1 ≤ q.1) :=
  ⟨fun _ _ _ h1 h2 => le_trans h1 h2⟩

/-- The names kept by the per-directory loop `for file in sorted(files)`
(cache.py, lines 100-120): the file children sorted by name, minus skipped
names and unreadable files.  Within one directory the names are distinct,
so any sort by name models Python's stable `sorted`. -/
def keptFileNames (entries : FSEntries) : List String :=
  ((List.insertionSort (fun p q : String × Bool => p.1 ≤ q.1)
      (fileEntries entries)).filter (fun p => !skipFile p.1 && p.2)).map Prod.fst

/-- The `relative_path` components of the records one `os.walk` step
contributes: the kept file names prefixed by the directory's relative
path. -/
def fileRecordPaths (pre : String) (entries : FSEntries) : List String :=
  (keptFileNames entries).map (fun n => pre ++ n)

/-- The records contributed by the recursive walk into the kept
subdirectories, in enumeration order (`os.walk` recurses into the pruned
`dirs` list as-is; only `files` is sorted). -/
def walkSubdirPaths (pre : String) : FSEntries → List String
  | .nil => []
  | .cons name (FSTree.dir es) rest =>
      (if keepDir name
        then fileRecordPaths (pre ++ name ++ "/") es
          ++ walkSubdirPaths (pre ++ name ++ "/") es
        else [])
        ++ walkSubdirPaths pre rest
  | .cons _ (FSTree.file _ _) rest => walkSubdirPaths pre rest

/-- All record paths a walk of one directory produces: this directory's
sorted files first, then the kept subdirectories depth-first in
enumeration order. -/
def walkRecordPaths (pre : String) (entries : FSEntries) : List String :=
  fileRecordPaths pre entries ++ walkSubdirPaths pre entries

/-- The `relative_path` components of the `file_hashes` records of
`_calculate_directory_hash`, in the order they are accumulated and later
joined with `|`. -/
def directoryRecordPaths : FSTree → List String
  | .file _ _ => []
  | .dir entries => walkRecordPaths "" entries

/-- Python `int(...)` applied to an exact rational wall-clock reading:
truncation toward zero. -/
def pyInt (t : ℚ) : Int := t.num.tdiv (t.den : Int)

/-- The scan-failure fallback of `_calculate_directory_hash` (cache.py,
lines 126-128): `str(int(time.time()))`, the decimal rendering of the
wall-clock reading truncated to whole seconds. -/
def fallbackFingerprint (t : ℚ) : String := toString (pyInt t)

/-! ## Claims about the fingerprinter -/

/-- An exact wall-clock reading of 10.3 seconds. -/
def scanFailTimeA : ℚ := Rat.mk' 103 10

/-- An exact wall-clock reading of 10.7 seconds. -/
def scanFailTimeB : ℚ := Rat.mk' 107 10

/-- Counterexample for C7: two scan-failure fallback computations at
distinct wall-clock readings 10.3s and 10.7s — both within the same whole
second — produce *equal* fallback fingerprints, so a pair of failing scans
does not always produce differing fingerprints. -/
theorem fallback_fingerprint_collision :
    fallbackFingerprint scanFailTimeA = fallbackFingerprint scanFailTimeB ∧
    scanFailTimeA ≠ scanFailTimeB := by
  constructor
  · have h : pyInt scanFailTimeA = pyInt scanFailTimeB := by decide
    unfold fallbackFingerprint
    rw [h]
  · decide

/-- C7, amended. The scan-failure fallback is the decimal rendering
of the wall clock truncated to whole seconds, so any two fallback
computations whose readings truncate to the same integer second yield
*identical* fingerprints: a scan failure guarantees a changed fingerprint
(and hence a cache miss) only across different whole seconds, not for
every pair of computations. -/
theorem fallback_same_second_collides (t1 t2 : ℚ) (h : pyInt t1 = pyInt t2) :
    fallbackFingerprint t1 = fallbackFingerprint t2 := by
  unfold fallbackFingerprint
  rw [h]

/-- Witness for C7: the readings 10.3s and 10.7s truncate to the same
second, and the theorem yields equal fingerprints. -/
theorem fallback_same_second_collides_witness :
    pyInt scanFailTimeA = pyInt scanFailTimeB ∧
    fallbackFingerprint scanFailTimeA = fallbackFingerprint scanFailTimeB :=
  ⟨by decide, fallback_same_second_collides scanFailTimeA scanFailTimeB (by decide)⟩

/-- A directory whose operating system enumerates its two subdirectories
out of lexicographic order: `b/` (holding file `x`) before `a/` (holding
file `y`). -/
def unsortedScanTree : FSTree :=
  .dir (.cons "b" (.dir (.cons "x" (.file true "cx") .nil))
    (.cons "a" (.dir (.cons "y" (.file true "cy") .nil)) .nil))

/-- Counterexample for C8: the walk only sorts the files *within* each
directory and recurses into subdirectories in enumeration order, so the
accumulated record paths `["b/x", "a/y"]` are not in sorted-path order. -/
theorem walk_order_not_path_sorted :
    directoryRecordPaths unsortedScanTree = ["b/x", "a/y"] ∧
    ¬ List.Sorted (· ≤ ·) (directoryRecordPaths unsortedScanTree) := by
  have h : directoryRecordPaths unsortedScanTree = ["b/x", "a/y"] := by decide
  refine ⟨h, ?_⟩
  rw [h]
  intro hs
  have hle : "b/x" ≤ "a/y" := (List.sorted_cons.mp hs).1 _ (by simp)
  have hnot : ¬ ("b/x" ≤ "a/y") := by
    rw [String.le_iff_toList_le]
    decide
  exact hnot hle

/-- C8, amended. The traversal sorts lexicographically only *within*
each directory: the file names a single `os.walk` step emits are sorted,
while subdirectories are recursed in the enumeration order the operating
system reports, so the accumulated record list is per-directory sorted but
not globally path-sorted, and the digest is deterministic only relative to
a fixed enumeration order. -/
theorem per_directory_file_names_sorted (entries : FSEntries) :
    List.Sorted (· ≤ ·) (keptFileNames entries) ∧
    (∀ (pre name : String) (es rest : FSEntries),
      walkSubdirPaths pre (.cons name (FSTree.dir es) rest) =
        (if keepDir name then walkRecordPaths (pre ++ name ++ "/") es else [])
          ++ walkSubdirPaths pre rest) := by
  constructor
  · have hsorted : List.Pairwise (fun p q : String × Bool => p.1 ≤ q.1)
        (List.insertionSort (fun p q : String × Bool => p.1 ≤ q.1)
          (fileEntries entries)) :=
      List.sorted_insertionSort _ _
    have hfilter : List.Pairwise (fun p q : String × Bool => p.1 ≤ q.1)
        ((List.insertionSort (fun p q : String × Bool => p.1 ≤ q.1)
          (fileEntries entries)).filter (fun p => !skipFile p.1 && p.2)) :=
      List.Pairwise.sublist (List.filter_sublist _) hsorted
    unfold keptFileNames
    rw [List.Sorted, List.pairwise_map]
    exact hfilter
  · intro pre name es rest
    rfl

end CodexBridge
